import Mathlib

/-!
Verification development for the pano_ip_finder repository.

The JavaScript sources under `app/` are shallowly embedded below.  String
handling in the embedding is done over `List Char` (via `String.toList`)
so that every definition is executable and provable by structural
reasoning; each definition carries a comment naming the source function
it translates.  The external library `ipaddr.js` is modelled at its
interface boundary for IPv4 dotted quads, which is the only way the
repository uses it.  Some JavaScript identifiers end in words the Lean
development cannot use as names; those are renamed with a comment.
-/

namespace PanoIpFinder

/-- Models `String.prototype.split(sep)` of JavaScript at the character
level: splits a character list on a separator character, keeping empty
parts, never returning an empty list of parts. -/
def splitOnChar (sep : Char) : List Char → List (List Char)
  | [] => [[]]
  | c :: rest =>
    if c = sep then [] :: splitOnChar sep rest
    else
      match splitOnChar sep rest with
      | [] => [[c]]
      | p :: ps => (c :: p) :: ps

/-- Character-level trim used to model `String.prototype.trim()`. -/
def trimChars (l : List Char) : List Char :=
  ((l.dropWhile Char.isWhitespace).reverse.dropWhile Char.isWhitespace).reverse

/-- Models `String.prototype.trim()`. -/
def jsTrim (s : String) : String :=
  String.mk (trimChars s.toList)

/-- Models `String.prototype.includes(c)` for a single character. -/
def strContains (s : String) (c : Char) : Bool :=
  s.toList.contains c

/-- ASCII lowering of one character; models the effect of
`String.prototype.toLowerCase()` on the ASCII tokens the sources
compare against. -/
def asciiLower (c : Char) : Char :=
  if 'A' ≤ c ∧ c ≤ 'Z' then Char.ofNat (c.toNat + 32) else c

/-- Models `String.prototype.toLowerCase()` (ASCII fragment). -/
def jsToLower (s : String) : String :=
  String.mk (s.toList.map asciiLower)

/-- Value of a list of decimal digit characters, most significant first. -/
def digitsToNat (l : List Char) : Nat :=
  l.foldl (fun acc c => acc * 10 + (c.toNat - '0'.toNat)) 0

/-- One dotted-quad part: nonempty, all decimal digits, value at most 255.
Models the per-octet acceptance of the `ipaddr.js` IPv4 parser. -/
def isOctet (cs : List Char) : Bool :=
  !cs.isEmpty && cs.all Char.isDigit && decide (digitsToNat cs ≤ 255)

/-- Models the external `ipaddr.js` library at its interface: parsing a
dotted-quad IPv4 string to its 32-bit value.  `toInt` in
`app/lib/ipmatch.js` folds the four parsed bytes with
`acc * 256 + byte`; the composition of library parse and `toInt` is
exactly this function. -/
def parseIPv4 (s : String) : Option Nat :=
  match splitOnChar '.' s.toList with
  | [a, b, c, d] =>
    if isOctet a && isOctet b && isOctet c && isOctet d then
      some (((digitsToNat a * 256 + digitsToNat b) * 256 + digitsToNat c) * 256 + digitsToNat d)
    else
      none
  | _ => none

/-- Models `ipaddr.isValid` as used by the sources (IPv4 dotted quads). -/
def isValidIPv4 (s : String) : Bool :=
  (parseIPv4 s).isSome

/-- Models the JavaScript `Number(s)` conversion on the strings the
sources feed it: a trimmed empty string converts to `0`, an optionally
signed run of decimal digits converts to the corresponding integer, and
everything else is NaN (`none`).  Fractional, hexadecimal and exponent
numerals do not occur in the repository inputs and are conservatively
modelled as NaN. -/
def jsNumber (s : String) : Option Int :=
  match trimChars s.toList with
  | [] => some 0
  | '-' :: ds =>
    if !ds.isEmpty && ds.all Char.isDigit then some (-(digitsToNat ds : Int)) else none
  | '+' :: ds =>
    if !ds.isEmpty && ds.all Char.isDigit then some (digitsToNat ds : Int) else none
  | ds =>
    if ds.all Char.isDigit then some (digitsToNat ds : Int) else none

/-- A normalized search target, from `normalizeTarget` in
`app/lib/ipmatch.js`: either a single address or a CIDR with its
0..32 bit count (the JS field named after the CIDR length is rendered
`pLen` here). -/
inductive Target where
  | ip (addr : Nat)
  | cidr (addr : Nat) (pLen : Nat)
  deriving DecidableEq, Repr

/-- `normalizeTarget` from `app/lib/ipmatch.js` (lines 17-43).  The JS
function throws on invalid input; the embedding returns `none` there.
A string containing `/` must split into a valid address and a numeric
suffix in `[0,32]`; otherwise the whole string must be a valid
address. -/
def normalizeTarget (target : String) : Option Target :=
  let t := jsTrim target
  if strContains t '/' then
    match splitOnChar '/' t.toList with
    | ipPart :: sufPart :: _ =>
      match parseIPv4 (String.mk ipPart) with
      | none => none
      | some addr =>
        match jsNumber (String.mk sufPart) with
        | none => none
        | some n => if n < 0 ∨ n > 32 then none else some (.cidr addr n.toNat)
    | _ => none
  else
    match parseIPv4 t with
    | none => none
    | some addr => some (.ip addr)

/-- Bit `i` of `v` (valued as in `(v >> i) & 1`). -/
def bitAt (v i : Nat) : Bool :=
  v / 2 ^ i % 2 = 1

/-- The scanning loop of `netmaskToPrefix` in `app/lib/ipmatch.js`
(lines 57-73): walk the mask bits from most significant to least,
counting leading ones and failing when a one follows a zero. -/
def countMaskBits (seenZero : Bool) (bits : Nat) : List Bool → Option Nat
  | [] => some bits
  | b :: rest =>
    if b then
      if seenZero then none else countMaskBits seenZero (bits + 1) rest
    else
      countMaskBits true bits rest

/-- The 32 bits of `v`, most significant first. -/
def bitsOf32 (v : Nat) : List Bool :=
  (List.range 32).map (fun i => bitAt v (31 - i))

/-- `netmaskToPrefix` from `app/lib/ipmatch.js` (lines 51-76), renamed
`netmaskBits` here: converts a dotted netmask to its leading-ones
count, failing on non-contiguous masks. -/
def netmaskBits (s : String) : Option Nat :=
  match parseIPv4 (jsTrim s) with
  | none => none
  | some v => countMaskBits false 0 (bitsOf32 v)

/-- Network address of `a` under the contiguous mask of `p` leading one
bits: models `(toInt(ip) & mask) >>> 0` in `app/lib/ipmatch.js` line
102, where `mask` is `prefix === 0 ? 0 : (~((1 << (32 - prefix)) - 1)) >>> 0`.
For a contiguous high mask the bitwise AND equals clearing the low
`32 - p` bits, which is the arithmetic form used here. -/
def maskNet (a p : Nat) : Nat :=
  a / 2 ^ (32 - p) * 2 ^ (32 - p)

/-- Result of the JavaScript expression `1 << k` for `0 ≤ k ≤ 31` as a
signed 32-bit integer. -/
def jsShl1 (k : Nat) : Int :=
  if k = 31 then -(2 ^ 31) else (2 ^ k : Nat)

/-- The broadcast computation of `app/lib/ipmatch.js` line 103:
`(net + ((1 << (32 - prefix)) - 1)) >>> 0`.  JavaScript shift counts
are taken modulo 32, so for `p = 0` the term `1 << 32` evaluates to
`1` and the computed broadcast collapses to `net` instead of covering
the whole address space. -/
def jsBroadcast (net p : Nat) : Nat :=
  (((net : Int) + (jsShl1 ((32 - p) % 32) - 1)).emod (2 ^ 32)).toNat

/-- Models the `ipaddr.js` method `a.match(b, p)`: the first `p` bits
of the two addresses agree. -/
def matchFirstBits (a b p : Nat) : Bool :=
  a / 2 ^ (32 - p) = b / 2 ^ (32 - p)

/-- The range branch of `ipMatchesTarget` (`app/lib/ipmatch.js` lines
95-104) after both bounds parsed: for an address target the test is
`aInt <= tInt && tInt <= bInt` with the bounds exactly as written in
the value string; for a CIDR target the test is
`!(bInt < net || aInt > broadcast)`. -/
def rangeMatch (aInt bInt : Nat) : Target → Bool
  | .ip tInt => decide (aInt ≤ tInt) && decide (tInt ≤ bInt)
  | .cidr tAddr p =>
    let net := maskNet tAddr p
    let broadcast := jsBroadcast net p
    !(decide (bInt < net) || decide (aInt > broadcast))

/-- `ipMatchesTarget` from `app/lib/ipmatch.js` (lines 78-145).  The
value string is tried as a range, then as a CIDR (numeric or dotted
netmask suffix), then as a single address; `any`, empty and
unparseable strings never match.  The single-address versus
single-address case compares the canonical string forms, which for
parsed quads coincides with comparing the 32-bit values. -/
def ipMatchesTarget (value : String) (target : Target) : Bool :=
  let v := jsTrim value
  if v = "" || v = "any" then false
  else if strContains v '-' then
    match splitOnChar '-' v.toList with
    | a :: b :: _ =>
      match parseIPv4 (jsTrim (String.mk a)), parseIPv4 (jsTrim (String.mk b)) with
      | some aInt, some bInt => rangeMatch aInt bInt target
      | _, _ => false
    | _ => false
  else if strContains v '/' then
    match splitOnChar '/' v.toList with
    | ipPart :: sufPart :: _ =>
      match parseIPv4 (String.mk ipPart) with
      | none => false
      | some net =>
        let pOpt : Option Int :=
          match jsNumber (String.mk sufPart) with
          | some n => some n
          | none => (netmaskBits (String.mk sufPart)).map Int.ofNat
        match pOpt with
        | none => false
        | some p =>
          if p < 0 ∨ p > 32 then false
          else
            match target with
            | .ip tInt => matchFirstBits tInt net p.toNat
            | .cidr tAddr tp =>
              (matchFirstBits net tAddr tp && decide (tp ≤ p.toNat)) ||
              (matchFirstBits tAddr net p.toNat && decide (p.toNat ≤ tp))
    | _ => false
  else
    match parseIPv4 v with
    | none => false
    | some n =>
      match target with
      | .ip tInt => decide (n = tInt)
      | .cidr tAddr p => matchFirstBits n tAddr p

/-- Models `Map.prototype.get`: `none` plays `undefined`. -/
def assocGet {α : Type} : List (String × α) → String → Option α
  | [], _ => none
  | (k', v') :: rest, k => if k' = k then some v' else assocGet rest k

/-- The object maps produced by `buildObjectMaps` in `app/lib/parse.js`:
per scope, address object name to raw value and group name to member
list. -/
structure Maps where
  addr : List (String × List (String × String))
  grp : List (String × List (String × List String))
  deriving DecidableEq, Repr

/-- `maps.addr.get(scope)` then `.get(name)`, collapsing the JS
`addrMap && addrMap.get(m)` guard: a missing scope map and a missing
name both give `undefined`. -/
def addrLookup (maps : Maps) (scope name : String) : Option String :=
  (assocGet maps.addr scope).bind (fun am => assocGet am name)

/-- `maps.grp.get(scope)` then `.get(name)`. -/
def grpLookup (maps : Maps) (scope name : String) : Option (List String) :=
  (assocGet maps.grp scope).bind (fun gm => assocGet gm name)

/-- JavaScript string truthiness applied to an optional value: the
empty string is falsy, so `x || y` falls through both on a missing
binding and on an empty stored value. -/
def jsTruthyStr (o : Option String) : Option String :=
  o.bind (fun s => if s = "" then none else some s)

/-- The two-level address lookup `(addrMap && addrMap.get(m)) || (sharedAddr
&& sharedAddr.get(m))` followed by the `if (val)` truthiness check, as
in all three `resolveMember` revisions: current scope first, `shared`
second, first truthy hit wins. -/
def addrScopeShared (maps : Maps) (scope name : String) : Option String :=
  (jsTruthyStr (addrLookup maps scope name)).or (jsTruthyStr (addrLookup maps "shared" name))

/-- The two-level group lookup.  Arrays are always truthy in
JavaScript (an empty member list still shadows `shared`), so only a
missing binding falls through. -/
def grpScopeShared (maps : Maps) (scope name : String) : Option (List String) :=
  (grpLookup maps scope name).or (grpLookup maps "shared" name)

/-- `resolveMember` from `app/lib/ipmatch.js` (lines 148-179), with the
JS recursion-depth guard rendered structurally: `gas` stands for
`26 - depth`, so `gas = 0` exactly when `depth > 25`.  The JS `seen`
set is mutated in place and shared across sibling recursive calls, so
the embedding threads it through and returns the updated set next to
the result list.  A key is `scope ++ "::" ++ member` with the member
as passed, before trimming. -/
def resolveMemberGas (maps : Maps) : Nat → String → String → List String → List String × List String
  | 0, _, _, seen => ([], seen)
  | gas + 1, scope, member, seen =>
    let key := scope ++ "::" ++ member
    if seen.contains key then ([], seen)
    else
      let seen1 := seen ++ [key]
      let m := jsTrim member
      if m = "" || m = "any" then ([], seen1)
      else if isValidIPv4 m || strContains m '/' || strContains m '-' then ([m], seen1)
      else
        match addrScopeShared maps scope m with
        | some val => ([val], seen1)
        | none =>
          match grpScopeShared maps scope m with
          | none => ([], seen1)
          | some mems =>
            mems.foldl
              (fun acc child =>
                let r := resolveMemberGas maps gas scope child acc.2
                (acc.1 ++ r.1, r.2))
              (([] : List String), seen1)

/-- `resolveMember` of `app/lib/ipmatch.js` at its JS signature, with
`depth` counting up and the default arguments of the source. -/
def resolveMember (scope member : String) (maps : Maps) (depth : Nat := 0)
    (seen : List String := []) : List String × List String :=
  resolveMemberGas maps (26 - depth) scope member seen

/-- `resolveMember` from `app/lib/parse.js` (lines 109-142): identical
to the `ipmatch.js` revision except the literal test, which is only
`m.includes("/") || m.includes("-")` with no address validity check. -/
def resolveMemberPGas (maps : Maps) : Nat → String → String → List String → List String × List String
  | 0, _, _, seen => ([], seen)
  | gas + 1, scope, member, seen =>
    let key := scope ++ "::" ++ member
    if seen.contains key then ([], seen)
    else
      let seen1 := seen ++ [key]
      let m := jsTrim member
      if m = "" || m = "any" then ([], seen1)
      else if strContains m '/' || strContains m '-' then ([m], seen1)
      else
        match addrScopeShared maps scope m with
        | some val => ([val], seen1)
        | none =>
          match grpScopeShared maps scope m with
          | none => ([], seen1)
          | some mems =>
            mems.foldl
              (fun acc child =>
                let r := resolveMemberPGas maps gas scope child acc.2
                (acc.1 ++ r.1, r.2))
              (([] : List String), seen1)

/-- `resolveMember` of `app/lib/parse.js` at its JS signature. -/
def resolveMemberP (scope member : String) (maps : Maps) (depth : Nat := 0)
    (seen : List String := []) : List String × List String :=
  resolveMemberPGas maps (26 - depth) scope member seen

/-!
The newest search route (`app/routes/search.js`, kept in the repository
as `src/unnamed/part_000` and `src/unnamed/part_001`) resolves and
matches through two functions of `app/lib/ipmatch.js` that the
repository snapshot does not contain: `parseValue` and `ipMatches`.
They are modelled from the spec below.
-/

/-- A normalized address value per the spec §3/§4.1: single address,
CIDR (network address plus bit count), or inclusive range with the
bounds reordered so the low bound comes first. -/
inductive NormalizedValue where
  | ip (addr : Nat)
  | cidr (net : Nat) (pLen : Nat)
  | range (lo hi : Nat)
  deriving DecidableEq, Repr

/-- Modelled from the spec: `parseValue` of `app/lib/ipmatch.js` is
missing from the snapshot; §4.1 defines it.  A string containing `-`
is a range (both sides must parse, the pair is reordered so lo ≤ hi);
a string containing `/` is a CIDR whose suffix is a number in `[0,32]`
or a contiguous dotted netmask; otherwise a valid dotted quad is a
single address; anything else is unparseable. -/
def parseValue (s : String) : Option NormalizedValue :=
  let v := jsTrim s
  if v = "" then none
  else if strContains v '-' then
    match splitOnChar '-' v.toList with
    | a :: b :: _ =>
      match parseIPv4 (jsTrim (String.mk a)), parseIPv4 (jsTrim (String.mk b)) with
      | some x, some y => some (.range (min x y) (max x y))
      | _, _ => none
    | _ => none
  else if strContains v '/' then
    match splitOnChar '/' v.toList with
    | ipPart :: sufPart :: _ =>
      match parseIPv4 (String.mk ipPart) with
      | none => none
      | some addr =>
        match jsNumber (String.mk sufPart) with
        | some n =>
          if n < 0 ∨ n > 32 then none else some (.cidr (maskNet addr n.toNat) n.toNat)
        | none =>
          match netmaskBits (String.mk sufPart) with
          | some p => some (.cidr (maskNet addr p) p)
          | none => none
    | _ => none
  else
    (parseIPv4 v).map .ip

/-- Modelled from the spec (§4.2): the inclusive 32-bit interval of a
normalized value. -/
def intervalOf : NormalizedValue → Nat × Nat
  | .ip n => (n, n)
  | .cidr net p => (net, net + 2 ^ (32 - p) - 1)
  | .range a b => (a, b)

/-- The three matching modes of §4.2. -/
inductive MatchMode where
  | overlap
  | contained
  | exact
  deriving DecidableEq, Repr

/-- Modelled from the spec (§4.2): interval comparison of two
normalized values under a mode. -/
def intervalMatch (v t : NormalizedValue) : MatchMode → Bool
  | .overlap =>
    !(decide ((intervalOf v).2 < (intervalOf t).1) || decide ((intervalOf v).1 > (intervalOf t).2))
  | .contained =>
    decide ((intervalOf t).1 ≤ (intervalOf v).1) && decide ((intervalOf v).2 ≤ (intervalOf t).2)
  | .exact =>
    match v, t with
    | .ip a, .ip b => decide (a = b)
    | .cidr a p, .cidr b q => decide (a = b) && decide (p = q)
    | _, _ => false

/-- Modelled from the spec: `ipMatches` of `app/lib/ipmatch.js` is
missing from the snapshot; §4.2 defines `match(value, target, mode)`
over §4.1 normalization, with `false` whenever either side fails to
normalize. -/
def ipMatches (value target : String) (mode : MatchMode) : Bool :=
  match parseValue value, parseValue target with
  | some v, some t => intervalMatch v t mode
  | _, _ => false

/-- `resolveMember` from the search route (`src/unnamed/part_001` lines
26-58, identical in `part_000`): trims and lowercases before the `any`
test, keys the cycle guard on the trimmed token, takes §4.1
normalization as the literal test, and trims a found object value. -/
def resolveMemberSGas (maps : Maps) : Nat → String → String → List String → List String × List String
  | 0, _, _, seen => ([], seen)
  | gas + 1, scope, member, seen =>
    let m := jsTrim member
    if m = "" || jsToLower m = "any" then ([], seen)
    else
      let key := scope ++ "::" ++ m
      if seen.contains key then ([], seen)
      else
        let seen1 := seen ++ [key]
        if (parseValue m).isSome then ([m], seen1)
        else
          match addrScopeShared maps scope m with
          | some val => ([jsTrim val], seen1)
          | none =>
            match grpScopeShared maps scope m with
            | none => ([], seen1)
            | some mems =>
              mems.foldl
                (fun acc child =>
                  let r := resolveMemberSGas maps gas scope child acc.2
                  (acc.1 ++ r.1, r.2))
                (([] : List String), seen1)

/-- The search-route `resolveMember` at its JS signature. -/
def resolveMemberS (scope member : String) (maps : Maps) (depth : Nat := 0)
    (seen : List String := []) : List String × List String :=
  resolveMemberSGas maps (26 - depth) scope member seen

/-- A match record of the search-route scanner
(`checkRuleForMatches` in `src/unnamed/part_000`), including the
`match_via` basis field. -/
structure MatchRecordS where
  deviceGroup : String
  rulebase : String
  rule : String
  matchedOn : String
  object : String
  resolvedValue : String
  matchVia : String
  deriving DecidableEq, Repr

/-- The per-member body of the `checkSide` loop in
`checkRuleForMatches` (`src/unnamed/part_000` lines 119-177): skip
empty and `any`; a §4.1 literal that matches records with basis
`literal` and stops; otherwise an address-object hit (scope then
shared) records with basis `address-object` when its trimmed value
matches, and stops; otherwise the token resolves as a group and each
matching candidate records with basis `address-group`. -/
def memberRecordS (maps : Maps) (scopeKey scopeLabel rulebaseLabel ruleName sideName targetStr : String)
    (mode : MatchMode) (mem : String) : List MatchRecordS :=
  let m := jsTrim mem
  if m = "" || jsToLower m = "any" then []
  else if (parseValue m).isSome && ipMatches m targetStr mode then
    [{ deviceGroup := scopeLabel, rulebase := rulebaseLabel, rule := ruleName,
       matchedOn := sideName, object := m, resolvedValue := m, matchVia := "literal" }]
  else
    match addrScopeShared maps scopeKey m with
    | some addrVal =>
      let val := jsTrim addrVal
      if ipMatches val targetStr mode then
        [{ deviceGroup := scopeLabel, rulebase := rulebaseLabel, rule := ruleName,
           matchedOn := sideName, object := m, resolvedValue := val, matchVia := "address-object" }]
      else []
    | none =>
      let resolved := (resolveMemberS scopeKey m maps).1
      (resolved.filter (fun val => ipMatches val targetStr mode)).map (fun val =>
        { deviceGroup := scopeLabel, rulebase := rulebaseLabel, rule := ruleName,
          matchedOn := sideName, object := m, resolvedValue := val, matchVia := "address-group" })

/-- The `checkSide` loop of `checkRuleForMatches`: members in order,
each pushing its records onto the shared results array. -/
def checkSideS (maps : Maps) (scopeKey scopeLabel rulebaseLabel ruleName sideName targetStr : String)
    (mode : MatchMode) (members : List String) : List MatchRecordS :=
  members.foldl
    (fun acc mem =>
      acc ++ memberRecordS maps scopeKey scopeLabel rulebaseLabel ruleName sideName targetStr mode mem)
    []

/-- A security rule entry as the scanners read it: an optional name
attribute and the source and destination member lists. -/
structure RuleEntry where
  name : Option String
  source : List String
  destination : List String
  deriving DecidableEq, Repr

/-- `checkRuleForMatches` from `src/unnamed/part_000` (lines 104-181):
source side first, then destination side. -/
def checkRuleS (maps : Maps) (scopeKey scopeLabel rulebaseLabel targetStr : String)
    (mode : MatchMode) (r : RuleEntry) : List MatchRecordS :=
  let ruleName := (jsTruthyStr r.name).getD "unnamed-rule"
  checkSideS maps scopeKey scopeLabel rulebaseLabel ruleName "source" targetStr mode r.source ++
  checkSideS maps scopeKey scopeLabel rulebaseLabel ruleName "destination" targetStr mode r.destination

/-!  Document model for `buildObjectMaps` and `findMatchingRules` of
`app/lib/parse.js`.  The model keeps exactly the fields those
functions read, with the `asArray(x?.y?.entry)` plumbing flattened to
plain lists: a missing subtree is the empty list, a missing optional
subtree is `none`. -/

theorem foldResolve_ext (g : String → List String → List String × List String)
    (hg : ∀ c s, ∃ ks, (g c s).2 = s ++ ks) :
    ∀ (mems : List String) (acc : List String × List String),
      ∃ ks, (mems.foldl (fun acc child =>
        let r := g child acc.2
        (acc.1 ++ r.1, r.2)) acc).2 = acc.2 ++ ks := by
  intro mems
  induction mems with
  | nil => exact fun acc => ⟨[], by simp⟩
  | cons c rest ih =>
    intro acc
    rcases hg c acc.2 with ⟨ks1, h1⟩
    rcases ih ((fun acc child =>
      let r := g child acc.2
      (acc.1 ++ r.1, r.2)) acc c) with ⟨ks2, h2⟩
    refine ⟨ks1 ++ ks2, ?_⟩
    simp only [List.foldl_cons]
    rw [h2]
    show (g c acc.2).2 ++ ks2 = acc.2 ++ (ks1 ++ ks2)
    rw [h1, List.append_assoc]

theorem foldResolve_nodup (g : String → List String → List String × List String)
    (hg : ∀ c s, s.Nodup → ((g c s).2).Nodup) :
    ∀ (mems : List String) (acc : List String × List String), acc.2.Nodup →
      ((mems.foldl (fun acc child =>
        let r := g child acc.2
        (acc.1 ++ r.1, r.2)) acc).2).Nodup := by
  intro mems
  induction mems with
  | nil => exact fun acc h => by simpa using h
  | cons c rest ih =>
    intro acc hacc
    simp only [List.foldl_cons]
    exact ih _ (hg c acc.2 hacc)

theorem foldl_acc_append {α β : Type} (f : α → List β) (l : List α) (init : List β) :
    l.foldl (fun acc x => acc ++ f x) init = init ++ l.flatMap f := by
  induction l generalizing init with
  | nil => simp
  | cons x rest ih => simp [ih, List.append_assoc]

/-! Claim theorems. -/

/-- C1: with both sides normalized to intervals, `contained` mode is
true exactly when the value interval lies inside the target interval
(`target.lo ≤ value.lo` and `value.hi ≤ target.hi`); in particular
`10.0.0.0/25` is contained in target `10.0.0.0/24` and `10.0.0.0/23`
is not. -/
theorem c1_contained_mode :
    (∀ (v t : String) (vn tn : NormalizedValue),
      parseValue v = some vn → parseValue t = some tn →
      (ipMatches v t .contained = true ↔
        ((intervalOf tn).1 ≤ (intervalOf vn).1 ∧ (intervalOf vn).2 ≤ (intervalOf tn).2))) ∧
    ipMatches "10.0.0.0/25" "10.0.0.0/24" .contained = true ∧
    ipMatches "10.0.0.0/23" "10.0.0.0/24" .contained = false := by
  refine ⟨?_, by decide, by decide⟩
  intro v t vn tn hv ht
  simp [ipMatches, hv, ht, intervalMatch]

/-- C1 witness: the general containment characterization applied to the
concrete `/25` value and `/24` target. -/
theorem c1_contained_mode_witness :
    ipMatches "10.0.0.0/25" "10.0.0.0/24" .contained = true ↔
      ((intervalOf (.cidr 167772160 24)).1 ≤ (intervalOf (.cidr 167772160 25)).1 ∧
       (intervalOf (.cidr 167772160 25)).2 ≤ (intervalOf (.cidr 167772160 24)).2) :=
  c1_contained_mode.1 "10.0.0.0/25" "10.0.0.0/24" (.cidr 167772160 25) (.cidr 167772160 24)
    (by decide) (by decide)

/-- C10: overlap mode is symmetric on strings that both normalize. -/
theorem c10_overlap_symmetric :
    ∀ (u v : String) (un vn : NormalizedValue),
      parseValue u = some un → parseValue v = some vn →
      ipMatches u v .overlap = ipMatches v u .overlap := by
  intro u v un vn hu hv
  simp only [ipMatches, hu, hv, intervalMatch]
  rcases intervalOf un with ⟨a, b⟩
  rcases intervalOf vn with ⟨c, d⟩
  simp only [gt_iff_lt]
  by_cases h1 : b < c <;> by_cases h2 : d < a <;> simp [h1, h2]

/-- C10 witness: symmetry applied to a concrete address and CIDR
pair. -/
theorem c10_overlap_symmetric_witness :
    ipMatches "10.0.0.5" "10.0.0.0/24" .overlap = ipMatches "10.0.0.0/24" "10.0.0.5" .overlap :=
  c10_overlap_symmetric "10.0.0.5" "10.0.0.0/24" (.ip 167772165) (.cidr 167772160 24)
    (by decide) (by decide)

/-- C9: false as a statement about prefix 0.  The code computes the
broadcast as `(net + ((1 << (32 - prefix)) - 1)) >>> 0`; JavaScript
shift counts wrap modulo 32, so for prefix 0 the computed broadcast is
`net` (that is, 0), not `2^32 - 1`, and a range value strictly inside
the address space fails to match the target `0.0.0.0/0` although its
interval lies inside `[0, 2^32 - 1]`.  For every other length the
computed broadcast does equal network plus `2^(32-p) - 1`, as the
`/24` instance here shows. -/
theorem c9_cidr_interval_bug :
    normalizeTarget "0.0.0.0/0" = some (.cidr 0 0) ∧
    maskNet 0 0 = 0 ∧
    jsBroadcast 0 0 = 0 ∧
    (2 ^ 32 - 1 : Nat) ≠ 0 ∧
    ipMatchesTarget "1.2.3.4-1.2.3.5" (.cidr 0 0) = false ∧
    (0 ≤ 16909060 ∧ 16909061 ≤ 2 ^ 32 - 1) ∧
    jsBroadcast (maskNet 167772160 24) 24 = maskNet 167772160 24 + 2 ^ (32 - 24) - 1 := by
  refine ⟨by decide, by decide, by decide, by decide, by decide, by decide, by decide⟩

/-- C7: false as stated.  `ipMatchesTarget` never reorders the two
range bounds: the value `0.0.0.20-0.0.0.1` parses on both sides and
the target `0.0.0.10` lies inside `[min, max]` of the bounds, yet the
match is false because the test uses the bounds exactly as written. -/
theorem c7_range_reorder_counterexample :
    parseIPv4 "0.0.0.20" = some 20 ∧
    parseIPv4 "0.0.0.1" = some 1 ∧
    normalizeTarget "0.0.0.10" = some (.ip 10) ∧
    (min 20 1 ≤ 10 ∧ 10 ≤ max 20 1) ∧
    ipMatchesTarget "0.0.0.20-0.0.0.1" (.ip 10) = false := by
  refine ⟨by decide, by decide, by decide, by decide, by decide⟩

/-- C7 amended: the bounds of a range value are used exactly as
written, with no reordering.  For an address target the test
`a ≤ t ∧ t ≤ b` agrees with the interval `[min, max]` test only when
the low bound comes first; when the bounds are reversed no address
target ever matches.  The last conjunct connects the factored range
test back to `ipMatchesTarget` on the full value string. -/
theorem c7_range_reorder_amended :
    (∀ a b t : Nat, a ≤ b →
      (rangeMatch a b (.ip t) = true ↔ (min a b ≤ t ∧ t ≤ max a b))) ∧
    (∀ a b t : Nat, b < a → rangeMatch a b (.ip t) = false) ∧
    (∀ (v : String) (aStr bStr : List Char) (rest : List (List Char)) (aInt bInt : Nat)
      (target : Target),
      jsTrim v ≠ "" → jsTrim v ≠ "any" →
      strContains (jsTrim v) '-' = true →
      splitOnChar '-' (jsTrim v).toList = aStr :: bStr :: rest →
      parseIPv4 (jsTrim (String.mk aStr)) = some aInt →
      parseIPv4 (jsTrim (String.mk bStr)) = some bInt →
      ipMatchesTarget v target = rangeMatch aInt bInt target) := by
  refine ⟨?_, ?_, ?_⟩
  · intro a b t hab
    simp only [rangeMatch, Bool.and_eq_true, decide_eq_true_eq]
    omega
  · intro a b t hba
    rw [Bool.eq_false_iff]
    simp only [ne_eq, rangeMatch, Bool.and_eq_true, decide_eq_true_eq, not_and]
    omega
  · intro v aStr bStr rest aInt bInt target hne hany hdash hsplit hpa hpb
    unfold ipMatchesTarget
    rw [if_neg, if_pos, hsplit]
    · simp [hpa, hpb]
    · exact hdash
    · simp [hne, hany]

/-- C7 amended witness: the equivalence at ordered bounds `1 ≤ 20`
with target 10, and the connection lemma at the concrete reversed
range string. -/
theorem c7_range_reorder_amended_witness :
    (rangeMatch 1 20 (.ip 10) = true ↔ (min 1 20 ≤ 10 ∧ 10 ≤ max 1 20)) ∧
    rangeMatch 20 1 (.ip 10) = false ∧
    ipMatchesTarget "0.0.0.20-0.0.0.1" (.ip 10) = rangeMatch 20 1 (.ip 10) :=
  ⟨c7_range_reorder_amended.1 1 20 10 (by decide),
   c7_range_reorder_amended.2.1 20 1 10 (by decide),
   c7_range_reorder_amended.2.2 "0.0.0.20-0.0.0.1"
     "0.0.0.20".toList "0.0.0.1".toList [] 20 1 (.ip 10)
     (by decide) (by decide) (by decide) (by decide) (by decide) (by decide)⟩

/-! Invariant lemmas for the resolver seen-set. -/

theorem resolveGas_ext (maps : Maps) :
    ∀ gas scope member seen, ∃ ks, (resolveMemberGas maps gas scope member seen).2 = seen ++ ks := by
  intro gas
  induction gas with
  | zero => exact fun scope member seen => ⟨[], by simp [resolveMemberGas]⟩
  | succ g ih =>
    intro scope member seen
    simp only [resolveMemberGas]
    split
    · exact ⟨[], by simp⟩
    split
    · exact ⟨[scope ++ "::" ++ member], rfl⟩
    split
    · exact ⟨[scope ++ "::" ++ member], rfl⟩
    split
    · exact ⟨[scope ++ "::" ++ member], rfl⟩
    split
    · exact ⟨[scope ++ "::" ++ member], rfl⟩
    next mems _ =>
      rcases foldResolve_ext (fun c s => resolveMemberGas maps g scope c s)
        (fun c s => ih scope c s) mems ([], seen ++ [scope ++ "::" ++ member]) with ⟨ks, hks⟩
      exact ⟨[scope ++ "::" ++ member] ++ ks, by rw [hks, List.append_assoc]⟩

theorem resolveGas_nodup (maps : Maps) :
    ∀ gas scope member seen, seen.Nodup →
      ((resolveMemberGas maps gas scope member seen).2).Nodup := by
  intro gas
  induction gas with
  | zero => exact fun scope member seen h => by simpa [resolveMemberGas] using h
  | succ g ih =>
    intro scope member seen hseen
    simp only [resolveMemberGas]
    split
    · exact hseen
    next hcon =>
      have hkey : (scope ++ "::" ++ member) ∉ seen := by
        intro hmem
        exact hcon (by simpa using List.elem_iff.mpr hmem)
      have hseen1 : (seen ++ [scope ++ "::" ++ member]).Nodup := by
        simp [List.nodup_append, hseen, hkey]
      split
      · exact hseen1
      split
      · exact hseen1
      split
      · exact hseen1
      split
      · exact hseen1
      next mems _ =>
        exact foldResolve_nodup (fun c s => resolveMemberGas maps g scope c s)
          (fun c s => ih scope c s) mems ([], seen ++ [scope ++ "::" ++ member]) hseen1

/-! Fixtures for the concrete scenarios. -/

/-- A maps value with a directly self-referential group. -/
def cycMaps : Maps := { addr := [], grp := [("shared", [("G", ["G"])])] }

/-- Scope `dg:X` defines object `web`, and `shared` defines an object
of the same name with a different value. -/
def c4Maps : Maps :=
  { addr := [("dg:X", [("web", "192.168.1.1")]), ("shared", [("web", "10.0.0.1")])], grp := [] }

/-- Scope `dg:X` defines a group `G` shadowing a shared group of the
same name; group `S` exists only in `shared`. -/
def c4GrpMaps : Maps :=
  { addr := [],
    grp := [("dg:X", [("G", ["192.168.1.1"])]),
            ("shared", [("G", ["10.0.0.1"]), ("S", ["10.0.0.2"])])] }

/-- Scope `dg:X` defines an address object whose name contains a
hyphen. -/
def c5Maps : Maps := { addr := [("dg:X", [("my-group", "10.0.0.7")])], grp := [] }

/-- Shared scope with object `A` = `10.0.0.0/24` and a group `G`
containing `A` and the literal `any`. -/
def c8Maps : Maps :=
  { addr := [("shared", [("A", "10.0.0.0/24")])], grp := [("shared", [("G", ["A", "any"])])] }

/-- A rule whose source references the group `G`. -/
def c8Rule : RuleEntry := { name := some "r1", source := ["G"], destination := [] }

/-- C8: the token `any` resolves to nothing in both resolver revisions
and matches no target under any matcher or mode; in the concrete
scenario (target `10.0.0.5`, mode overlap, a rule source member naming
a group that contains object `A` = `10.0.0.0/24` and the literal
`any`) the scan produces exactly one record, basis `address-group`,
resolved value `10.0.0.0/24`. -/
theorem c8_any_never_matches :
    (∀ (t : String) (mode : MatchMode), ipMatches "any" t mode = false) ∧
    (∀ target : Target, ipMatchesTarget "any" target = false) ∧
    (∀ (maps : Maps) (scope : String) (depth : Nat) (seen : List String),
      (resolveMember scope "any" maps depth seen).1 = []) ∧
    (∀ (maps : Maps) (scope : String) (depth : Nat) (seen : List String),
      (resolveMemberS scope "any" maps depth seen).1 = []) ∧
    checkRuleS c8Maps "shared" "shared" "rulebase" "10.0.0.5" .overlap c8Rule =
      [{ deviceGroup := "shared", rulebase := "rulebase", rule := "r1", matchedOn := "source",
         object := "G", resolvedValue := "10.0.0.0/24", matchVia := "address-group" }] := by
  refine ⟨?_, ?_, ?_, ?_, by decide⟩
  · intro t mode
    have h : parseValue "any" = none := by decide
    cases hpt : parseValue t <;> simp [ipMatches, h, hpt]
  · intro target
    unfold ipMatchesTarget
    simp [show jsTrim "any" = "any" from by decide]
  · intro maps scope depth seen
    unfold resolveMember
    cases hg : 26 - depth with
    | zero => simp [resolveMemberGas]
    | succ g =>
      simp only [resolveMemberGas]
      split
      · rfl
      · simp [show jsTrim "any" = "any" from by decide]
  · intro maps scope depth seen
    unfold resolveMemberS
    cases hg : 26 - depth with
    | zero => simp [resolveMemberSGas]
    | succ g =>
      simp only [resolveMemberSGas]
      simp [show jsTrim "any" = "any" from by decide, show jsToLower "any" = "any" from by decide]

/-- C3: the resolver of `app/lib/ipmatch.js` is depth-bounded and
cycle-safe: above depth 25 it returns an empty result unchanged, a
`(scope, token)` key already in the seen set yields an empty list, the
seen set only ever grows by fresh keys (so within one top-level call
no pair is ever revisited: started from a duplicate-free set it stays
duplicate-free), and a directly self-referential group resolves to the
empty list rather than an error. -/
theorem c3_resolver_termination :
    (∀ (maps : Maps) (scope member : String) (depth : Nat) (seen : List String),
      depth > 25 → resolveMember scope member maps depth seen = ([], seen)) ∧
    (∀ (maps : Maps) (scope member : String) (depth : Nat) (seen : List String),
      (scope ++ "::" ++ member) ∈ seen → (resolveMember scope member maps depth seen).1 = []) ∧
    (∀ (maps : Maps) (scope member : String) (depth : Nat) (seen : List String),
      seen.Nodup → ((resolveMember scope member maps depth seen).2).Nodup) ∧
    (∀ (maps : Maps) (scope member : String) (depth : Nat) (seen : List String),
      ∃ ks, (resolveMember scope member maps depth seen).2 = seen ++ ks) ∧
    (resolveMember "shared" "G" cycMaps).1 = [] := by
  refine ⟨?_, ?_, ?_, ?_, by decide⟩
  · intro maps scope member depth seen hd
    unfold resolveMember
    rw [show 26 - depth = 0 from by omega]
    rfl
  · intro maps scope member depth seen hmem
    unfold resolveMember
    cases hg : 26 - depth with
    | zero => rfl
    | succ g =>
      simp only [resolveMemberGas]
      rw [if_pos (by simpa using List.elem_iff.mpr hmem)]
  · intro maps scope member depth seen hseen
    exact resolveGas_nodup maps (26 - depth) scope member seen hseen
  · intro maps scope member depth seen
    exact resolveGas_ext maps (26 - depth) scope member seen

/-- C3 witness: the depth bound, cycle guard, and seen-set facts of
the termination theorem applied at concrete inputs. -/
theorem c3_resolver_termination_witness :
    resolveMember "shared" "G" cycMaps 26 [] = ([], []) ∧
    (resolveMember "shared" "G" cycMaps 0 ["shared::G"]).1 = [] ∧
    ((resolveMember "shared" "G" cycMaps 0 []).2).Nodup ∧
    (∃ ks, (resolveMember "shared" "G" cycMaps 0 []).2 = [] ++ ks) :=
  ⟨c3_resolver_termination.1 cycMaps "shared" "G" 26 [] (by decide),
   c3_resolver_termination.2.1 cycMaps "shared" "G" 0 ["shared::G"] (by decide),
   c3_resolver_termination.2.2.1 cycMaps "shared" "G" 0 [] (by decide),
   c3_resolver_termination.2.2.2.1 cycMaps "shared" "G" 0 []⟩

/-- C4: every name lookup during resolution consults the current scope
map first and `shared` only on a miss, with the first hit winning, for
address objects and for groups alike.  A truthy current-scope address
hit fully determines the result, whatever `shared` holds; a falsy
current-scope address lookup falls back to the truthy `shared` value;
a current-scope group binding (arrays are always truthy) selects the
scope members, whatever `shared` holds; a missing current-scope group
binding falls back to the `shared` members.  In the concrete collision
scenario, resolving `web` in scope `dg:X` returns the scope value
`192.168.1.1` although `shared` maps `web` to `10.0.0.1`; the group
fixture shows the same shadowing and fallback for group names. -/
theorem c4_scope_shadows_shared :
    (∀ (maps : Maps) (scope member : String) (depth : Nat) (seen : List String) (v : String),
      depth ≤ 25 →
      seen.contains (scope ++ "::" ++ member) = false →
      jsTrim member ≠ "" → jsTrim member ≠ "any" →
      isValidIPv4 (jsTrim member) = false →
      strContains (jsTrim member) '/' = false →
      strContains (jsTrim member) '-' = false →
      jsTruthyStr (addrLookup maps scope (jsTrim member)) = some v →
      resolveMember scope member maps depth seen = ([v], seen ++ [scope ++ "::" ++ member])) ∧
    (∀ (maps : Maps) (scope member : String) (depth : Nat) (seen : List String) (v : String),
      depth ≤ 25 →
      seen.contains (scope ++ "::" ++ member) = false →
      jsTrim member ≠ "" → jsTrim member ≠ "any" →
      isValidIPv4 (jsTrim member) = false →
      strContains (jsTrim member) '/' = false →
      strContains (jsTrim member) '-' = false →
      jsTruthyStr (addrLookup maps scope (jsTrim member)) = none →
      jsTruthyStr (addrLookup maps "shared" (jsTrim member)) = some v →
      resolveMember scope member maps depth seen = ([v], seen ++ [scope ++ "::" ++ member])) ∧
    (∀ (maps : Maps) (scope member : String) (depth : Nat) (seen : List String)
      (mems : List String),
      depth ≤ 25 →
      seen.contains (scope ++ "::" ++ member) = false →
      jsTrim member ≠ "" → jsTrim member ≠ "any" →
      isValidIPv4 (jsTrim member) = false →
      strContains (jsTrim member) '/' = false →
      strContains (jsTrim member) '-' = false →
      addrScopeShared maps scope (jsTrim member) = none →
      grpLookup maps scope (jsTrim member) = some mems →
      resolveMember scope member maps depth seen =
        mems.foldl
          (fun acc child =>
            let r := resolveMemberGas maps (25 - depth) scope child acc.2
            (acc.1 ++ r.1, r.2))
          ([], seen ++ [scope ++ "::" ++ member])) ∧
    (∀ (maps : Maps) (scope member : String) (depth : Nat) (seen : List String)
      (mems : List String),
      depth ≤ 25 →
      seen.contains (scope ++ "::" ++ member) = false →
      jsTrim member ≠ "" → jsTrim member ≠ "any" →
      isValidIPv4 (jsTrim member) = false →
      strContains (jsTrim member) '/' = false →
      strContains (jsTrim member) '-' = false →
      addrScopeShared maps scope (jsTrim member) = none →
      grpLookup maps scope (jsTrim member) = none →
      grpLookup maps "shared" (jsTrim member) = some mems →
      resolveMember scope member maps depth seen =
        mems.foldl
          (fun acc child =>
            let r := resolveMemberGas maps (25 - depth) scope child acc.2
            (acc.1 ++ r.1, r.2))
          ([], seen ++ [scope ++ "::" ++ member])) ∧
    (resolveMember "dg:X" "web" c4Maps).1 = ["192.168.1.1"] ∧
    addrLookup c4Maps "shared" "web" = some "10.0.0.1" ∧
    (resolveMember "dg:Y" "web" c4Maps).1 = ["10.0.0.1"] ∧
    (resolveMember "dg:X" "G" c4GrpMaps).1 = ["192.168.1.1"] ∧
    grpLookup c4GrpMaps "shared" "G" = some ["10.0.0.1"] ∧
    (resolveMember "dg:X" "S" c4GrpMaps).1 = ["10.0.0.2"] := by
  refine ⟨?_, ?_, ?_, ?_, by decide, by decide, by decide, by decide, by decide, by decide⟩
  · intro maps scope member depth seen v hd hcon hm1 hm2 hlit hsl hda hv
    unfold resolveMember
    rw [show 26 - depth = (25 - depth) + 1 from by omega]
    simp only [resolveMemberGas]
    rw [if_neg (by simp only [hcon]; simp)]
    rw [if_neg (by simp [hm1, hm2])]
    rw [if_neg (by simp [hlit, hsl, hda])]
    have haddr : addrScopeShared maps scope (jsTrim member) = some v := by
      simp [addrScopeShared, hv, Option.or]
    rw [haddr]
  · intro maps scope member depth seen v hd hcon hm1 hm2 hlit hsl hda hmiss hv
    unfold resolveMember
    rw [show 26 - depth = (25 - depth) + 1 from by omega]
    simp only [resolveMemberGas]
    rw [if_neg (by simp only [hcon]; simp)]
    rw [if_neg (by simp [hm1, hm2])]
    rw [if_neg (by simp [hlit, hsl, hda])]
    have haddr : addrScopeShared maps scope (jsTrim member) = some v := by
      simp [addrScopeShared, hmiss, hv, Option.or]
    rw [haddr]
  · intro maps scope member depth seen mems hd hcon hm1 hm2 hlit hsl hda haddr hgrp
    unfold resolveMember
    rw [show 26 - depth = (25 - depth) + 1 from by omega]
    simp only [resolveMemberGas]
    rw [if_neg (by simp only [hcon]; simp)]
    rw [if_neg (by simp [hm1, hm2])]
    rw [if_neg (by simp [hlit, hsl, hda])]
    rw [haddr]
    have hg : grpScopeShared maps scope (jsTrim member) = some mems := by
      simp [grpScopeShared, hgrp, Option.or]
    rw [hg]
  · intro maps scope member depth seen mems hd hcon hm1 hm2 hlit hsl hda haddr hgmiss hgrp
    unfold resolveMember
    rw [show 26 - depth = (25 - depth) + 1 from by omega]
    simp only [resolveMemberGas]
    rw [if_neg (by simp only [hcon]; simp)]
    rw [if_neg (by simp [hm1, hm2])]
    rw [if_neg (by simp [hlit, hsl, hda])]
    rw [haddr]
    have hg : grpScopeShared maps scope (jsTrim member) = some mems := by
      simp [grpScopeShared, hgmiss, hgrp, Option.or]
    rw [hg]

/-- C4 witness: the four lookup-precedence statements instantiated at
the collision and fallback fixtures: scope address hit, shared address
fallback, scope group hit, shared group fallback. -/
theorem c4_scope_shadows_shared_witness :
    resolveMember "dg:X" "web" c4Maps 0 [] = (["192.168.1.1"], ["dg:X" ++ "::" ++ "web"]) ∧
    resolveMember "dg:Y" "web" c4Maps 0 [] = (["10.0.0.1"], ["dg:Y" ++ "::" ++ "web"]) ∧
    resolveMember "dg:X" "G" c4GrpMaps 0 [] =
      (["192.168.1.1"], ["dg:X::G", "dg:X::192.168.1.1"]) ∧
    resolveMember "dg:X" "S" c4GrpMaps 0 [] =
      (["10.0.0.2"], ["dg:X::S", "dg:X::10.0.0.2"]) := by
  refine ⟨?_, ?_, ?_, ?_⟩
  · have h := c4_scope_shadows_shared.1 c4Maps "dg:X" "web" 0 [] "192.168.1.1"
      (by decide) (by decide) (by decide) (by decide) (by decide) (by decide) (by decide)
      (by decide)
    simpa using h
  · have h := c4_scope_shadows_shared.2.1 c4Maps "dg:Y" "web" 0 [] "10.0.0.1"
      (by decide) (by decide) (by decide) (by decide) (by decide) (by decide) (by decide)
      (by decide) (by decide)
    simpa using h
  · have h := c4_scope_shadows_shared.2.2.1 c4GrpMaps "dg:X" "G" 0 [] ["192.168.1.1"]
      (by decide) (by decide) (by decide) (by decide) (by decide) (by decide) (by decide)
      (by decide) (by decide)
    rw [h]
    decide
  · have h := c4_scope_shadows_shared.2.2.2.1 c4GrpMaps "dg:X" "S" 0 [] ["10.0.0.2"]
      (by decide) (by decide) (by decide) (by decide) (by decide) (by decide) (by decide)
      (by decide) (by decide) (by decide)
    rw [h]
    decide

/-- C5: false as stated for the resolver revisions of
`app/lib/ipmatch.js` and `app/lib/parse.js`.  The token `my-group`
does not normalize as an IP, CIDR or range, but because it contains a
hyphen the `ipmatch.js` resolver returns it verbatim instead of
looking it up as the address-object name it is; the search-route
resolver (`src/unnamed/part_001`) does look it up. -/
theorem c5_literal_bypass_counterexample :
    parseValue "my-group" = none ∧
    (resolveMember "dg:X" "my-group" c5Maps).1 = ["my-group"] ∧
    addrLookup c5Maps "dg:X" "my-group" = some "10.0.0.7" ∧
    (resolveMemberS "dg:X" "my-group" c5Maps).1 = ["10.0.0.7"] := by
  refine ⟨by decide, by decide, by decide, by decide⟩

/-- C5 amended: in the search-route revision (`src/unnamed/part_001`)
the claim holds: a token is returned verbatim exactly when §4.1
normalization succeeds, and otherwise goes through object-then-group
lookup.  In the `ipmatch.js` and `parse.js` revisions the verbatim
test is a substring heuristic instead: any token containing `/` or `-`
(and, in `ipmatch.js`, any valid address) is returned verbatim without
any lookup. -/
theorem c5_literal_bypass_amended :
    (∀ (maps : Maps) (scope member : String) (depth : Nat) (seen : List String),
      depth ≤ 25 →
      jsTrim member ≠ "" → jsToLower (jsTrim member) ≠ "any" →
      seen.contains (scope ++ "::" ++ jsTrim member) = false →
      (parseValue (jsTrim member)).isSome = true →
      resolveMemberS scope member maps depth seen =
        ([jsTrim member], seen ++ [scope ++ "::" ++ jsTrim member])) ∧
    (∀ (maps : Maps) (scope member : String) (depth : Nat) (seen : List String) (v : String),
      depth ≤ 25 →
      jsTrim member ≠ "" → jsToLower (jsTrim member) ≠ "any" →
      seen.contains (scope ++ "::" ++ jsTrim member) = false →
      (parseValue (jsTrim member)).isSome = false →
      addrScopeShared maps scope (jsTrim member) = some v →
      resolveMemberS scope member maps depth seen =
        ([jsTrim v], seen ++ [scope ++ "::" ++ jsTrim member])) ∧
    (∀ (maps : Maps) (scope member : String) (depth : Nat) (seen : List String),
      depth ≤ 25 →
      jsTrim member ≠ "" → jsToLower (jsTrim member) ≠ "any" →
      seen.contains (scope ++ "::" ++ jsTrim member) = false →
      (parseValue (jsTrim member)).isSome = false →
      addrScopeShared maps scope (jsTrim member) = none →
      grpScopeShared maps scope (jsTrim member) = none →
      resolveMemberS scope member maps depth seen =
        ([], seen ++ [scope ++ "::" ++ jsTrim member])) ∧
    (∀ (maps : Maps) (scope member : String) (depth : Nat) (seen : List String)
      (mems : List String),
      depth ≤ 25 →
      jsTrim member ≠ "" → jsToLower (jsTrim member) ≠ "any" →
      seen.contains (scope ++ "::" ++ jsTrim member) = false →
      (parseValue (jsTrim member)).isSome = false →
      addrScopeShared maps scope (jsTrim member) = none →
      grpScopeShared maps scope (jsTrim member) = some mems →
      resolveMemberS scope member maps depth seen =
        mems.foldl
          (fun acc child =>
            let r := resolveMemberSGas maps (25 - depth) scope child acc.2
            (acc.1 ++ r.1, r.2))
          ([], seen ++ [scope ++ "::" ++ jsTrim member])) ∧
    (∀ (maps : Maps) (scope member : String) (depth : Nat) (seen : List String),
      depth ≤ 25 →
      seen.contains (scope ++ "::" ++ member) = false →
      jsTrim member ≠ "" → jsTrim member ≠ "any" →
      (strContains (jsTrim member) '/' || strContains (jsTrim member) '-') = true →
      resolveMember scope member maps depth seen =
        ([jsTrim member], seen ++ [scope ++ "::" ++ member]) ∧
      resolveMemberP scope member maps depth seen =
        ([jsTrim member], seen ++ [scope ++ "::" ++ member])) := by
  refine ⟨?_, ?_, ?_, ?_, ?_⟩
  · intro maps scope member depth seen hd hm1 hm2 hcon hlit
    unfold resolveMemberS
    rw [show 26 - depth = (25 - depth) + 1 from by omega]
    simp only [resolveMemberSGas]
    rw [if_neg (by simp [hm1, hm2])]
    rw [if_neg (by simp only [hcon]; simp)]
    rw [if_pos (by simp [hlit])]
  · intro maps scope member depth seen v hd hm1 hm2 hcon hlit haddr
    unfold resolveMemberS
    rw [show 26 - depth = (25 - depth) + 1 from by omega]
    simp only [resolveMemberSGas]
    rw [if_neg (by simp [hm1, hm2])]
    rw [if_neg (by simp only [hcon]; simp)]
    rw [if_neg (by simp [hlit])]
    rw [haddr]
  · intro maps scope member depth seen hd hm1 hm2 hcon hlit haddr hgrp
    unfold resolveMemberS
    rw [show 26 - depth = (25 - depth) + 1 from by omega]
    simp only [resolveMemberSGas]
    rw [if_neg (by simp [hm1, hm2])]
    rw [if_neg (by simp only [hcon]; simp)]
    rw [if_neg (by simp [hlit])]
    rw [haddr, hgrp]
  · intro maps scope member depth seen mems hd hm1 hm2 hcon hlit haddr hgrp
    unfold resolveMemberS
    rw [show 26 - depth = (25 - depth) + 1 from by omega]
    simp only [resolveMemberSGas]
    rw [if_neg (by simp [hm1, hm2])]
    rw [if_neg (by simp only [hcon]; simp)]
    rw [if_neg (by simp [hlit])]
    rw [haddr, hgrp]
  · intro maps scope member depth seen hd hcon hm1 hm2 hlit
    have hlit' : strContains (jsTrim member) '/' = true ∨ strContains (jsTrim member) '-' = true := by
      rcases Bool.or_eq_true_iff.mp hlit with h | h
      · exact Or.inl h
      · exact Or.inr h
    constructor
    · unfold resolveMember
      rw [show 26 - depth = (25 - depth) + 1 from by omega]
      simp only [resolveMemberGas]
      rw [if_neg (by simp only [hcon]; simp)]
      rw [if_neg (by simp [hm1, hm2])]
      rcases hlit' with h | h <;> rw [if_pos (by simp [h])]
    · unfold resolveMemberP
      rw [show 26 - depth = (25 - depth) + 1 from by omega]
      simp only [resolveMemberPGas]
      rw [if_neg (by simp only [hcon]; simp)]
      rw [if_neg (by simp [hm1, hm2])]
      rcases hlit' with h | h <;> rw [if_pos (by simp [h])]

/-- C5 amended witness: the search-route characterization at a literal
token and at the hyphenated object name, and the verbatim behavior of
the older revisions on the same hyphenated name. -/
theorem c5_literal_bypass_amended_witness :
    resolveMemberS "dg:X" "10.0.0.9" c5Maps 0 [] = (["10.0.0.9"], ["dg:X" ++ "::" ++ "10.0.0.9"]) ∧
    resolveMemberS "dg:X" "my-group" c5Maps 0 [] = (["10.0.0.7"], ["dg:X" ++ "::" ++ "my-group"]) ∧
    resolveMember "dg:X" "my-group" c5Maps 0 [] = (["my-group"], ["dg:X" ++ "::" ++ "my-group"]) :=
  ⟨by
    have h := c5_literal_bypass_amended.1 c5Maps "dg:X" "10.0.0.9" 0 []
      (by decide) (by decide) (by decide) (by decide) (by decide)
    simpa using h,
   by
    have h := c5_literal_bypass_amended.2.1 c5Maps "dg:X" "my-group" 0 [] "10.0.0.7"
      (by decide) (by decide) (by decide) (by decide) (by decide) (by decide)
    simpa using h,
   by
    have h := (c5_literal_bypass_amended.2.2.2.2 c5Maps "dg:X" "my-group" 0 []
      (by decide) (by decide) (by decide) (by decide) (by decide)).1
    simpa using h⟩

/-- C6: the search-route scan processes the member tokens of one rule
side in order, each producing its own records: a §4.1 literal that
matches records with basis `literal`; otherwise an address-object hit
(scope then shared) records with basis `address-object` exactly when
its trimmed value matches; otherwise the token is resolved as a group
and every matching candidate records with basis `address-group`. -/
theorem c6_scan_step_order :
    (∀ (maps : Maps) (sk sl rl rn sn ts : String) (mode : MatchMode) (members : List String),
      checkSideS maps sk sl rl rn sn ts mode members =
        members.flatMap (memberRecordS maps sk sl rl rn sn ts mode)) ∧
    (∀ (maps : Maps) (sk sl rl rn sn ts : String) (mode : MatchMode) (mem : String),
      jsTrim mem ≠ "" → jsToLower (jsTrim mem) ≠ "any" →
      ((parseValue (jsTrim mem)).isSome && ipMatches (jsTrim mem) ts mode) = true →
      memberRecordS maps sk sl rl rn sn ts mode mem =
        [{ deviceGroup := sl, rulebase := rl, rule := rn, matchedOn := sn,
           object := jsTrim mem, resolvedValue := jsTrim mem, matchVia := "literal" }]) ∧
    (∀ (maps : Maps) (sk sl rl rn sn ts : String) (mode : MatchMode) (mem v : String),
      jsTrim mem ≠ "" → jsToLower (jsTrim mem) ≠ "any" →
      ((parseValue (jsTrim mem)).isSome && ipMatches (jsTrim mem) ts mode) = false →
      addrScopeShared maps sk (jsTrim mem) = some v →
      memberRecordS maps sk sl rl rn sn ts mode mem =
        (if ipMatches (jsTrim v) ts mode then
          [{ deviceGroup := sl, rulebase := rl, rule := rn, matchedOn := sn,
             object := jsTrim mem, resolvedValue := jsTrim v, matchVia := "address-object" }]
        else [])) ∧
    (∀ (maps : Maps) (sk sl rl rn sn ts : String) (mode : MatchMode) (mem : String),
      jsTrim mem ≠ "" → jsToLower (jsTrim mem) ≠ "any" →
      ((parseValue (jsTrim mem)).isSome && ipMatches (jsTrim mem) ts mode) = false →
      addrScopeShared maps sk (jsTrim mem) = none →
      memberRecordS maps sk sl rl rn sn ts mode mem =
        ((resolveMemberS sk (jsTrim mem) maps).1.filter
          (fun val => ipMatches val ts mode)).map (fun val =>
          { deviceGroup := sl, rulebase := rl, rule := rn, matchedOn := sn,
            object := jsTrim mem, resolvedValue := val, matchVia := "address-group" })) := by
  refine ⟨?_, ?_, ?_, ?_⟩
  · intro maps sk sl rl rn sn ts mode members
    exact foldl_acc_append (memberRecordS maps sk sl rl rn sn ts mode) members []
  · intro maps sk sl rl rn sn ts mode mem hm1 hm2 hlit
    unfold memberRecordS
    rw [if_neg (by simp [hm1, hm2])]
    rw [if_pos (by simp [hlit])]
  · intro maps sk sl rl rn sn ts mode mem v hm1 hm2 hlit haddr
    unfold memberRecordS
    rw [if_neg (by simp [hm1, hm2])]
    rw [if_neg (by simp [hlit])]
    rw [haddr]
  · intro maps sk sl rl rn sn ts mode mem hm1 hm2 hlit haddr
    unfold memberRecordS
    rw [if_neg (by simp [hm1, hm2])]
    rw [if_neg (by simp [hlit])]
    rw [haddr]

/-- C6 witness: the flatMap decomposition and the three step shapes at
the concrete C8 fixture. -/
theorem c6_scan_step_order_witness :
    checkSideS c8Maps "shared" "shared" "rulebase" "r1" "source" "10.0.0.5" .overlap ["G"] =
      ["G"].flatMap (memberRecordS c8Maps "shared" "shared" "rulebase" "r1" "source" "10.0.0.5" .overlap) ∧
    memberRecordS c8Maps "shared" "shared" "rulebase" "r1" "source" "10.0.0.5" .overlap "10.0.0.5" =
      [{ deviceGroup := "shared", rulebase := "rulebase", rule := "r1", matchedOn := "source",
         object := "10.0.0.5", resolvedValue := "10.0.0.5", matchVia := "literal" }] ∧
    memberRecordS c8Maps "shared" "shared" "rulebase" "r1" "source" "10.0.0.5" .overlap "A" =
      (if ipMatches (jsTrim "10.0.0.0/24") "10.0.0.5" .overlap then
        [{ deviceGroup := "shared", rulebase := "rulebase", rule := "r1", matchedOn := "source",
           object := "A", resolvedValue := jsTrim "10.0.0.0/24", matchVia := "address-object" }]
      else []) ∧
    memberRecordS c8Maps "shared" "shared" "rulebase" "r1" "source" "10.0.0.5" .overlap "G" =
      ((resolveMemberS "shared" (jsTrim "G") c8Maps).1.filter
        (fun val => ipMatches val "10.0.0.5" .overlap)).map (fun val =>
        { deviceGroup := "shared", rulebase := "rulebase", rule := "r1", matchedOn := "source",
          object := jsTrim "G", resolvedValue := val, matchVia := "address-group" }) :=
  ⟨c6_scan_step_order.1 c8Maps "shared" "shared" "rulebase" "r1" "source" "10.0.0.5" .overlap ["G"],
   by
    have h := c6_scan_step_order.2.1 c8Maps "shared" "shared" "rulebase" "r1" "source" "10.0.0.5"
      .overlap "10.0.0.5" (by decide) (by decide) (by decide)
    simpa using h,
   by
    have h := c6_scan_step_order.2.2.1 c8Maps "shared" "shared" "rulebase" "r1" "source" "10.0.0.5"
      .overlap "A" "10.0.0.0/24" (by decide) (by decide) (by decide) (by decide)
    simpa using h,
   by
    have h := c6_scan_step_order.2.2.2 c8Maps "shared" "shared" "rulebase" "r1" "source" "10.0.0.5"
      .overlap "G" (by decide) (by decide) (by decide) (by decide)
    simpa using h⟩

end PanoIpFinder
